import Mathlib

set_option maxRecDepth 100000

/-!
Verification development for the `summarize-video` edge function of the
video-summary-buddy repository (src/supabase/functions/summarize-video/index.ts).

The TypeScript source is shallowly embedded: each JS function becomes a Lean
definition; the behaviour of the external collaborators (the YouTube page
fetch, the caption-payload fetch, the oEmbed title lookup, the chat-completion
endpoint and the database insert) is an explicit `World` value; a thrown JS
exception that is caught becomes `Option.none` / `Except.error`; JSON.parse is
embedded as a small executable JSON parser.
-/

/-! ## 4.1 Video ID extractor (index.ts lines 111-123)

`extractVideoId` tries two regexes in order:
  1. `(?:youtube\.com\/watch\?v=|youtu\.be\/|youtube\.com\/embed\/)([^&\n?#]+)`
  2. `^([a-zA-Z0-9_-]{11})$`
Regex 1 is embedded as a left-to-right scan over the string, at each start
position trying the three literal alternatives in order; on a literal match the
capture group `[^&\n?#]+` is the maximal nonempty run of non-terminator
characters (greedy `+` with nothing after it never backtracks).
-/

/-- The character class `[^&\n?#]` of regex 1: `true` for the four terminator
characters excluded from the capture group. -/
def isStopChar (c : Char) : Bool :=
  ['&', '\n', '?', '#'].contains c

/-- The character class `[a-zA-Z0-9_-]` of regex 2. -/
def isIdChar (c : Char) : Bool :=
  c.isAlphanum || ['_', '-'].contains c

/-- Match a literal regex fragment: `some rest` iff `p` is a prefix of `cs`,
returning the remainder. -/
def stripLit : List Char → List Char → Option (List Char)
  | [], cs => some cs
  | _ :: _, [] => none
  | p :: ps, c :: cs => if p == c then stripLit ps cs else none

/-- Literal alternative `youtube\.com\/watch\?v=` of regex 1. -/
def watchLit : List Char := "youtube.com/watch?v=".data

/-- Literal alternative `youtu\.be\/` of regex 1. -/
def shortLit : List Char := "youtu.be/".data

/-- Literal alternative `youtube\.com\/embed\/` of regex 1. -/
def embedLit : List Char := "youtube.com/embed/".data

/-- Try one alternative of regex 1 at the current position: the literal must
match, followed by a nonempty run of non-terminator characters (the capture). -/
def tryAlt (p : List Char) (cs : List Char) : Option (List Char) :=
  match stripLit p cs with
  | none => none
  | some rest =>
    let run := rest.takeWhile (fun c => !(isStopChar c))
    if run.isEmpty then none else some run

/-- Try the three alternatives of regex 1, in source order, at one position. -/
def matchAlts (cs : List Char) : Option (List Char) :=
  (tryAlt watchLit cs).orElse fun _ =>
  (tryAlt shortLit cs).orElse fun _ =>
  tryAlt embedLit cs

/-- The unanchored regex-1 search: try each start position left to right,
first successful position wins (JS `String.prototype.match` semantics). -/
def findUrlMatch : List Char → Option (List Char)
  | [] => none
  | c :: cs =>
    match matchAlts (c :: cs) with
    | some r => some r
    | none => findUrlMatch cs

/-- `extractVideoId` (index.ts lines 111-123): regex 1 first; if it has no
match anywhere, regex 2 accepts the whole input when it is exactly 11
characters of `[a-zA-Z0-9_-]` (capture = entire input); otherwise `null`. -/
def extractVideoId (url : String) : Option String :=
  match findUrlMatch url.data with
  | some run => some (String.mk run)
  | none =>
    if url.data.length == 11 && url.data.all isIdChar then some url else none

/-! ## JSON values and `JSON.parse`

The edge function decodes three JSON payloads (the isolated caption-manifest
fragment, the caption events payload, the oEmbed / completion bodies).
`JSON.parse` is embedded as a fuel-driven recursive-descent parser producing
`Json`; a parse failure (`none`) models the thrown `SyntaxError`.
Numbers are kept as their raw lexeme (no numeric value is ever read by the
source). Modelling boundary: `\uXXXX` string escapes are not decoded (none of
the payloads considered contain them); a string containing one fails to parse.
-/

inductive Json where
  | null
  | boolean (b : Bool)
  | number (raw : String)
  | string (s : String)
  | array (items : List Json)
  | object (props : List (String × Json))
deriving Repr

/-- JSON insignificant whitespace. -/
def isJsonWs (c : Char) : Bool :=
  [' ', '\t', '\n', '\r'].contains c

def skipWs (cs : List Char) : List Char := cs.dropWhile isJsonWs

/-- Decode a one-character string escape `\c`. -/
def escTable : List (Char × Char) :=
  [('"', '"'), ('\\', '\\'), ('/', '/'), ('n', '\n'),
   ('t', '\t'), ('r', '\r'), ('b', '\x08'), ('f', '\x0c')]

def escChar (c : Char) : Option Char :=
  (escTable.find? fun p => p.1 == c).map fun p => p.2

/-- Parse the body of a JSON string, the opening quote already consumed;
returns the decoded content and the remainder after the closing quote. -/
def parseJString : List Char → Option (String × List Char)
  | [] => none
  | c :: rest =>
    if c == '"' then some ("", rest)
    else if c == '\\' then
      match rest with
      | [] => none
      | e :: rest2 =>
        match escChar e with
        | none => none
        | some d => (parseJString rest2).map fun p => (String.mk (d :: p.1.data), p.2)
    else (parseJString rest).map fun p => (String.mk (c :: p.1.data), p.2)

/-- Characters that can occur in a JSON number lexeme. -/
def isNumChar (c : Char) : Bool :=
  c.isDigit || ['-', '+', '.', 'e', 'E'].contains c

/-- Parser state: a plain value, the members of an object after `{` or after a
comma, or the elements of an array after `[` or after a comma. -/
inductive PJob where
  | value
  | members (acc : List (String × Json)) (first : Bool)
  | elems (acc : List Json) (first : Bool)

/-- Fuel-driven JSON parser core. -/
def parseJ : Nat → PJob → List Char → Option (Json × List Char)
  | 0, _, _ => none
  | n + 1, PJob.value, cs =>
    match skipWs cs with
    | [] => none
    | c :: rest =>
      if c == '{' then parseJ n (PJob.members [] true) rest
      else if c == '[' then parseJ n (PJob.elems [] true) rest
      else if c == '"' then (parseJString rest).map fun p => (Json.string p.1, p.2)
      else if c == 't' then
        match stripLit "rue".data rest with
        | some r => some (Json.boolean true, r)
        | none => none
      else if c == 'f' then
        match stripLit "alse".data rest with
        | some r => some (Json.boolean false, r)
        | none => none
      else if c == 'n' then
        match stripLit "ull".data rest with
        | some r => some (Json.null, r)
        | none => none
      else if c == '-' || c.isDigit then
        let raw := (c :: rest).takeWhile isNumChar
        if raw.any Char.isDigit then
          some (Json.number (String.mk raw), (c :: rest).drop raw.length)
        else none
      else none
  | n + 1, PJob.members acc first, cs =>
    match skipWs cs with
    | [] => none
    | c :: rest =>
      if c == '}' then
        if first then some (Json.object acc, rest) else none
      else if c == '"' then
        match parseJString rest with
        | none => none
        | some (k, r1) =>
          match skipWs r1 with
          | ':' :: r2 =>
            match parseJ n PJob.value r2 with
            | none => none
            | some (v, r3) =>
              match skipWs r3 with
              | ',' :: r4 => parseJ n (PJob.members (acc ++ [(k, v)]) false) r4
              | '}' :: r4 => some (Json.object (acc ++ [(k, v)]), r4)
              | _ => none
          | _ => none
      else none
  | n + 1, PJob.elems acc first, cs =>
    match skipWs cs with
    | [] => none
    | c :: rest =>
      if c == ']' then
        if first then some (Json.array acc, rest) else none
      else
        match parseJ n PJob.value (c :: rest) with
        | none => none
        | some (v, r1) =>
          match skipWs r1 with
          | ',' :: r2 => parseJ n (PJob.elems (acc ++ [v]) false) r2
          | ']' :: r2 => some (Json.array (acc ++ [v]), r2)
          | _ => none

/-- `JSON.parse`: parse one value, require only whitespace after it;
`none` models the thrown `SyntaxError`. -/
def jsonParse (s : String) : Option Json :=
  match parseJ (2 * s.data.length + 2) PJob.value s.data with
  | some (j, rest) => if (skipWs rest).isEmpty then some j else none
  | none => none

/-- JS property access `j.k` on a decoded JSON value: `none` models
`undefined` (also for non-object receivers). -/
def jsonGet (j : Json) (k : String) : Option Json :=
  match j with
  | Json.object fs => (fs.find? fun f => f.1 == k).map fun f => f.2
  | _ => none

/-- JS truthiness of a decoded JSON value (a number is falsy iff its value is
zero, i.e. its lexeme has no nonzero digit). -/
def jsTruthy (j : Json) : Bool :=
  match j with
  | Json.null => false
  | Json.boolean b => b
  | Json.string s => !(s == "")
  | Json.number raw => raw.data.any fun c => c.isDigit && !(c == '0')
  | Json.array _ => true
  | Json.object _ => true

/-- JS truthiness of a possibly-`undefined` property. -/
def jsOptTruthy (j : Option Json) : Bool :=
  match j with
  | none => false
  | some v => jsTruthy v

/-! ## External collaborators

A `World` fixes the behaviour of every outbound call of one request:
the YouTube page fetch, the caption-payload fetch (a function of the caption
URL), the oEmbed title lookup, the chat-completion call, the `LOVABLE_API_KEY`
environment variable, and the database insert (`some (id, created_at)` on
success, `none` on a store error). -/

/-- Outcome of one `fetch`: either the promise rejects (network error), or a
response arrives with its `ok` flag, status and body text. -/
inductive FetchOutcome where
  | netError
  | response (ok : Bool) (status : Nat) (body : String)

structure World where
  pageFetch : FetchOutcome
  captionFetch : String → FetchOutcome
  oembedFetch : FetchOutcome
  aiFetch : FetchOutcome
  apiKey : Option String
  dbInsert : Option (String × String)

/-- The outbound calls a request performs, in order. -/
inductive ExtCall where
  | page
  | caption
  | oembed
  | ai
  | db
deriving DecidableEq, Repr

/-! ## 4.2 Transcript resolver (index.ts lines 125-202)

Line 138 checks the page body against
`/"captions":(\{[^}]+captionTracks[^}]+\})/` (existence only); line 149
isolates the manifest with
`/"captions":(\{"playerCaptionsTracklistRenderer":\{[^}]+?"captionTracks":\[[^\]]+\][^}]*\}\})/`
and line 155 runs `JSON.parse` on the capture wrapped in one more brace pair.
Both regexes are embedded as explicit scanners with the exact
backtracking-regex semantics of their shapes: a lazy `[^x]+?` tries the
shortest extension first and retries on failure of the rest of the pattern; a
greedy `[^x]+`/`[^x]*` directly followed by the literal `x` takes the maximal
run (shrinking it can never help since the run excludes `x`). -/

/-- `"captions":{` — the literal head of regex 1 (line 138). -/
def markerLit : List Char := "\"captions\":\x7b".data

/-- `captionTracks` — the inner literal of regex 1. -/
def tracksWord : List Char := "captionTracks".data

/-- Does regex 1 match at this start position?  After the literal head, the
greedy `[^}]+` parts confine the rest of the match to the maximal run of
non-`}` characters, which must contain `captionTracks` with at least one
character before it and after it, and must be terminated by a literal `}`. -/
def markerMatchAt (cs : List Char) : Bool :=
  match stripLit markerLit cs with
  | none => false
  | some rest =>
    let run := rest.takeWhile fun c => !(c == '}')
    decide (run.length < rest.length) &&
      (List.range run.length).any fun i =>
        decide (1 ≤ i) && (run.drop i).take tracksWord.length == tracksWord &&
          decide (i + tracksWord.length < run.length)

/-- Generic unanchored first-match scan over start positions. -/
def findMapSuffix (f : List Char → Option α) : List Char → Option α
  | [] => f []
  | c :: cs =>
    match f (c :: cs) with
    | some r => some r
    | none => findMapSuffix f cs

/-- Generic unanchored any-position test. -/
def anySuffix (p : List Char → Bool) : List Char → Bool
  | [] => p []
  | c :: cs => p (c :: cs) || anySuffix p cs

/-- `pageHtml.match(regex-1) !== null` (line 138). -/
def hasCaptionsMarker (s : String) : Bool :=
  anySuffix markerMatchAt s.data

/-- `"captions":{"playerCaptionsTracklistRenderer":{` — the literal head of
regex 2 (line 149). -/
def manifestLit : List Char :=
  "\"captions\":\x7b\"playerCaptionsTracklistRenderer\":\x7b".data

/-- The part of the regex-2 capture group before the lazy hole. -/
def captureHead : List Char :=
  "\x7b\"playerCaptionsTracklistRenderer\":\x7b".data

/-- `"captionTracks":[` — the literal after the lazy hole in regex 2. -/
def tracksLit : List Char := "\"captionTracks\":[".data

/-- `[^}]*\}\}`: maximal non-`}` run, then two literal braces; returns the
matched characters. -/
def tailPart (cs : List Char) : Option (List Char) :=
  let run := cs.takeWhile fun c => !(c == '}')
  match cs.drop run.length with
  | '}' :: '}' :: _ => some (run ++ ['}', '}'])
  | _ => none

/-- `[^\]]+\][^}]*\}\}`: nonempty maximal non-`]` run, a literal `]`, then
`tailPart`; returns the matched characters. -/
def arrPart (cs : List Char) : Option (List Char) :=
  let run := cs.takeWhile fun c => !(c == ']')
  if run.isEmpty then none
  else
    match cs.drop run.length with
    | ']' :: rest2 => (tailPart rest2).map fun t => run ++ ']' :: t
    | _ => none

/-- The lazy hole `[^}]+?` followed by `tracksLit` and `arrPart`: consume one
non-`}` character at a time, trying the rest of the pattern after each;
returns all characters matched from the hole onwards. -/
def lazyHole : List Char → Option (List Char)
  | [] => none
  | c :: rest =>
    if c == '}' then none
    else
      match
        (if (rest.take tracksLit.length) == tracksLit then
          (arrPart (rest.drop tracksLit.length)).map fun m => tracksLit ++ m
        else none) with
      | some m => some (c :: m)
      | none => (lazyHole rest).map fun m => c :: m

/-- Does regex 2 match at this start position?  Returns the capture group. -/
def manifestMatchAt (cs : List Char) : Option (List Char) :=
  match stripLit manifestLit cs with
  | none => none
  | some rest => (lazyHole rest).map fun m => captureHead ++ m

/-- `pageHtml.match(regex-2)` (line 149): first start position whose full
pattern (with backtracking) succeeds; result is capture group 1. -/
def findCaptionsJson (s : String) : Option String :=
  (findMapSuffix manifestMatchAt s.data).map String.mk

/-! ### Flattening the caption events (lines 183-195) -/

/-- `seg.utf8` inside `event.segs.map(seg => seg.utf8).join('')`.  The caption
payload contract (§6) gives `utf8` as a string; a missing field is JS
`undefined`, which `Array.prototype.join` renders as the empty string. -/
def segUtf8 (seg : Json) : String :=
  match jsonGet seg "utf8" with
  | some (Json.string t) => t
  | _ => ""

/-- The filter predicate `event => event.segs` (line 189). -/
def segTruthy (ev : Json) : Bool := jsOptTruthy (jsonGet ev "segs")

/-- JS `' '`-trimming of both ends (`String.prototype.trim`, restricted to the
ASCII whitespace characters, the only ones arising here). -/
def isJsSpace (c : Char) : Bool :=
  [' ', '\t', '\n', '\r', '\x0b', '\x0c'].contains c

def jsTrim (s : String) : String :=
  String.mk ((s.data.dropWhile isJsSpace).reverse.dropWhile isJsSpace).reverse

/-- Lines 188-195: keep events whose `segs` is truthy, join each event's
segment texts with no separator, join events with `' '`, replace `\n` by
`' '`, trim.  `none` models the `TypeError` thrown (and caught at line 198)
when a kept event's `segs` is not an array. -/
def flattenJsonEvents (events : List Json) : Option String :=
  match (events.filter segTruthy).mapM (fun ev =>
      match jsonGet ev "segs" with
      | some (Json.array segs) => some (String.join (segs.map segUtf8))
      | _ => none) with
  | none => none
  | some texts =>
    some (jsTrim (String.mk ((String.intercalate " " texts).data.map
      fun c => if c == '\n' then ' ' else c)))

/-- Lines 172-197: fetch the caption URL, decode its body, check the events
list, flatten.  Every failure (rejected fetch, non-ok status, undecodable
body, missing/empty/non-array `events`) yields `null`, either by an explicit
`return null` or through the enclosing try/catch. -/
def captionStage (w : World) (captionUrl : String) : Option String :=
  match w.captionFetch captionUrl with
  | FetchOutcome.netError => none
  | FetchOutcome.response ok _ body =>
    if ok then
      match jsonParse body with
      | none => none
      | some td =>
        match jsonGet td "events" with
        | some (Json.array (e :: es)) => flattenJsonEvents (e :: es)
        | _ => none
    else none

/-- `captionsData?.playerCaptionsTracklistRenderer?.captionTracks` followed by
the emptiness check and `captionTracks[0].baseUrl` (lines 161-169): `some url`
exactly when the track list is a nonempty array whose first entry has a string
`baseUrl`; every other shape ends in `return null` or a caught `TypeError`. -/
def firstTrackUrl (captionsData : Json) : Option String :=
  match jsonGet captionsData "playerCaptionsTracklistRenderer" with
  | some r =>
    match jsonGet r "captionTracks" with
    | some (Json.array (t :: _)) =>
      match jsonGet t "baseUrl" with
      | some (Json.string u) => some u
      | _ => none
    | _ => none
  | none => none

/-- `fetchTranscript` (lines 125-202) together with the trace of outbound
calls it makes.  The result component is the resolved transcript
(`none` = the function's `return null`, from any failure path or the
try/catch). -/
def fetchTranscriptT (w : World) (videoId : String) : Option String × List ExtCall :=
  match w.pageFetch with
  | FetchOutcome.netError => (none, [ExtCall.page])
  | FetchOutcome.response ok _ pageHtml =>
    if ok then
      if hasCaptionsMarker pageHtml then
        match findCaptionsJson pageHtml with
        | none => (none, [ExtCall.page])
        | some g =>
          match jsonParse ("\x7b" ++ g ++ "\x7d") with
          | none => (none, [ExtCall.page])
          | some captionsData =>
            match firstTrackUrl captionsData with
            | none => (none, [ExtCall.page])
            | some captionUrl => (captionStage w captionUrl, [ExtCall.page, ExtCall.caption])
      else (none, [ExtCall.page])
    else (none, [ExtCall.page])

/-- The transcript resolver's result (`string | null`). -/
def fetchTranscript (w : World) (videoId : String) : Option String :=
  (fetchTranscriptT w videoId).1

/-! ## 4.3 Title resolver (index.ts lines 204-219) -/

/-- Rendering of a truthy non-string `data.title` (JS would hand the raw value
back; only scalar lexemes can arise from the oEmbed contract, whose `title`
is a string when present). -/
def jsTitleRender (j : Json) : String :=
  match j with
  | Json.string s => s
  | Json.number raw => raw
  | Json.boolean true => "true"
  | Json.boolean false => "false"
  | _ => ""

/-- `fetchVideoTitle`: on an ok response, `data.title || 'Unknown Video'`;
every failure (rejected fetch, non-ok status, undecodable body, missing or
falsy `title`) falls through to the fixed placeholder. -/
def fetchVideoTitle (w : World) : String :=
  match w.oembedFetch with
  | FetchOutcome.netError => "Unknown Video"
  | FetchOutcome.response ok _ body =>
    if ok then
      match jsonParse body with
      | none => "Unknown Video"
      | some data =>
        match jsonGet data "title" with
        | some t => if jsTruthy t then jsTitleRender t else "Unknown Video"
        | none => "Unknown Video"
    else "Unknown Video"

/-! ## 4.4 Summarizer (index.ts lines 221-271) -/

/-- `data.choices[0].message.content` (line 270): `ok` when the decoded body
has that shape with a string content; any other shape is a `TypeError` thrown
while (or directly after) extracting, surfacing as a request failure. -/
def aiExtractContent (body : String) : Except String String :=
  match jsonParse body with
  | none => "SyntaxError: response body is not JSON" |> Except.error
  | some data =>
    match jsonGet data "choices" with
    | some (Json.array (c0 :: _)) =>
      match jsonGet c0 "message" with
      | some m =>
        match jsonGet m "content" with
        | some (Json.string s) => Except.ok s
        | _ => Except.error "TypeError: malformed completion payload"
      | none => Except.error "TypeError: malformed completion payload"
    | _ => Except.error "TypeError: malformed completion payload"

/-- `summarizeWithAI` (lines 221-271): throw if the key is unset; throw
`AI Gateway error: <status>` on a non-ok response; otherwise extract the first
choice's message content.  `Except.error` models a thrown `Error`, whose
message the orchestrator's catch block reports. -/
def summarizeWithAI (w : World) (transcript : String) (title : String) :
    Except String String :=
  match w.apiKey with
  | none => Except.error "LOVABLE_API_KEY not configured"
  | some _ =>
    match w.aiFetch with
    | FetchOutcome.netError => Except.error "fetch failed"
    | FetchOutcome.response ok status body =>
      if ok then aiExtractContent body
      else Except.error ("AI Gateway error: " ++ toString status)

/-! ## 4.5 Request orchestrator (index.ts lines 10-109) -/

/-- The fixed instructional fallback prompt built at lines 49-59 when the
transcript is falsy, with the original video URL interpolated at the end. -/
def fallbackText (videoUrl : String) : String :=
  "TRANSCRIPT NOT AVAILABLE.\n\nThe captions for this YouTube video could not be fetched. You do NOT know the exact content of the video.\n\nBased ONLY on the title and URL, do the following:\n1. Clearly tell the user that the transcript is not available.\n2. Explain what this likely means (no subtitles or restricted video).\n3. If the title suggests a topic, give a very high-level, generic description of what such a video might cover.\n4. Warn the user that this is just a guess.\n\nVideo URL: " ++ videoUrl

/-- JS falsiness of the resolved transcript at line 47 (`if (!transcript)`):
`null` and the empty string are both falsy. -/
def isFalsyTranscript : Option String → Bool
  | none => true
  | some s => s == ""

/-- The text handed to `summarizeWithAI` (lines 45-65): the fallback prompt
when the transcript is falsy, otherwise the transcript itself. -/
def promptFor (videoUrl : String) (transcript : Option String) : String :=
  if isFalsyTranscript transcript then fallbackText videoUrl
  else transcript.getD ""

/-- What one request produced: HTTP status of the response, its `error` field,
its success payload `(summary, videoTitle, id, created_at)`, the transcript
arguments passed to `summarizeWithAI`, whether the store insert was reached,
and the ordered trace of outbound calls. -/
structure ServeResult where
  status : Nat
  errorMsg : Option String
  payload : Option (String × String × String × String)
  aiPrompts : List String
  insertCalled : Bool
  calls : List ExtCall

/-- The `[ExtCall.ai]` trace entry of `summarizeWithAI` (no outbound call is
made when the key is unset). -/
def summarizeCalls (w : World) : List ExtCall :=
  match w.apiKey with
  | none => []
  | some _ => [ExtCall.ai]

/-- The request handler body (lines 15-108) after a successfully parsed JSON
request body; `videoUrl?` is the body's `videoUrl` field (`none` = absent,
and `some ""` is equally falsy at line 18).  Order of effects follows the
source: ID extraction, `fetchTranscript`, `fetchVideoTitle`, prompt choice,
`summarizeWithAI`, store insert.  A thrown error reaches the catch block at
line 101 and yields status 500 with the error's message (`Failed to process
video` for the non-`Error` store failure object). -/
def handle (w : World) (videoUrlField : Option String) : ServeResult :=
  match videoUrlField with
  | none => ⟨400, some "Video URL is required", none, [], false, []⟩
  | some u =>
    if u == "" then ⟨400, some "Video URL is required", none, [], false, []⟩
    else
      match extractVideoId u with
      | none => ⟨400, some "Invalid YouTube URL", none, [], false, []⟩
      | some videoId =>
        let tr := fetchTranscriptT w videoId
        let videoTitle := fetchVideoTitle w
        let prompt := promptFor u tr.1
        match summarizeWithAI w prompt videoTitle with
        | Except.error msg =>
          ⟨500, some msg, none, [prompt], false,
            tr.2 ++ [ExtCall.oembed] ++ summarizeCalls w⟩
        | Except.ok summary =>
          match w.dbInsert with
          | none =>
            ⟨500, some "Failed to process video", none, [prompt], true,
              tr.2 ++ [ExtCall.oembed] ++ summarizeCalls w ++ [ExtCall.db]⟩
          | some (rowId, createdAt) =>
            ⟨200, none, some (summary, videoTitle, rowId, createdAt), [prompt], true,
              tr.2 ++ [ExtCall.oembed] ++ summarizeCalls w ++ [ExtCall.db]⟩

/-! ## Concrete worlds used by the closed theorems and witnesses -/

/-- A video page body containing a canonical well-formed caption manifest:
the marker key `"captions":` followed by
`{"playerCaptionsTracklistRenderer":{...,"captionTracks":[{...}]}}`
with one track whose `baseUrl` is `u1`. -/
def c1Page : String :=
  "<html><script>var ytInitialPlayerResponse = \x7b\"captions\":\x7b\"playerCaptionsTracklistRenderer\":\x7b\"a\":1,\"captionTracks\":[\x7b\"baseUrl\":\"u1\",\"languageCode\":\"en\"\x7d]\x7d\x7d,\"videoDetails\":\x7b\x7d\x7d</script></html>"

/-- The manifest fragment regex 2 captures out of `c1Page` — well-formed JSON. -/
def c1Capture : String :=
  "\x7b\"playerCaptionsTracklistRenderer\":\x7b\"a\":1,\"captionTracks\":[\x7b\"baseUrl\":\"u1\",\"languageCode\":\"en\"\x7d]\x7d\x7d"

/-- The decoded form of `c1Capture`. -/
def c1ManifestJson : Json :=
  Json.object [("playerCaptionsTracklistRenderer",
    Json.object [("a", Json.number "1"),
      ("captionTracks", Json.array [Json.object [("baseUrl", Json.string "u1"),
        ("languageCode", Json.string "en")]])])]

/-- A caption payload with one segment-bearing event. -/
def c1CaptionBody : String :=
  "\x7b\"events\":[\x7b\"tStartMs\":0,\"segs\":[\x7b\"utf8\":\"hello \"\x7d,\x7b\"utf8\":\"world\"\x7d]\x7d]\x7d"

/-- A world whose page fetch returns `c1Page` and whose caption fetch for `u1`
returns `c1CaptionBody`: every premise of claim C1 holds in it. -/
def c1World : World :=
  ⟨FetchOutcome.response true 200 c1Page,
   fun u => if u == "u1" then FetchOutcome.response true 200 c1CaptionBody
            else FetchOutcome.netError,
   FetchOutcome.netError, FetchOutcome.netError, none, none⟩

/-- The three events of claim C2, as decoded JSON. -/
def c2Events : List Json :=
  [Json.object [("segs", Json.array [Json.object [("utf8", Json.string "Hello ")]])],
   Json.object [("segs", Json.array [Json.object [("utf8", Json.string "world")]])],
   Json.object [("noSegs", Json.boolean true)]]

/-- The caption-fetch response body carrying exactly the events of claim C2. -/
def c2Body : String :=
  "\x7b\"events\":[\x7b\"segs\":[\x7b\"utf8\":\"Hello \"\x7d]\x7d,\x7b\"segs\":[\x7b\"utf8\":\"world\"\x7d]\x7d,\x7b\"noSegs\":true\x7d]\x7d"

/-- A world whose caption fetch for `u2` returns `c2Body`. -/
def c2World : World :=
  ⟨FetchOutcome.netError,
   fun u => if u == "u2" then FetchOutcome.response true 200 c2Body
            else FetchOutcome.netError,
   FetchOutcome.netError, FetchOutcome.netError, none, none⟩

/-- A world whose oEmbed lookup rejects (network error). -/
def c6World : World :=
  ⟨FetchOutcome.netError, fun _ => FetchOutcome.netError, FetchOutcome.netError,
   FetchOutcome.netError, none, none⟩

/-- A world whose completion endpoint answers HTTP 500. -/
def c7World : World :=
  ⟨FetchOutcome.netError, fun _ => FetchOutcome.netError, FetchOutcome.netError,
   FetchOutcome.response false 500 "err", some "k", some ("id1", "t1")⟩

/-- A successful completion-endpoint body. -/
def c8Body : String :=
  "\x7b\"choices\":[\x7b\"message\":\x7b\"content\":\"a summary\"\x7d\x7d]\x7d"

/-- A world with no reachable transcript but a fully working summarizer and
store. -/
def c8World : World :=
  ⟨FetchOutcome.netError, fun _ => FetchOutcome.netError, FetchOutcome.netError,
   FetchOutcome.response true 200 c8Body, some "k", some ("id1", "t1")⟩

/-- A world in which every external step of a request succeeds except the
transcript page fetch; used to exhibit the order of outbound calls. -/
def c9World : World :=
  ⟨FetchOutcome.netError, fun _ => FetchOutcome.netError, FetchOutcome.netError,
   FetchOutcome.response true 200 c8Body, some "key", some ("id1", "t1")⟩

/-- A caption payload with a nonempty event list none of whose events carries
segments. -/
def c10Body : String := "\x7b\"events\":[\x7b\"noSegs\":true\x7d]\x7d"

/-- A world whose caption fetch for `u3` returns `c10Body`. -/
def c10World : World :=
  ⟨FetchOutcome.netError,
   fun u => if u == "u3" then FetchOutcome.response true 200 c10Body
            else FetchOutcome.netError,
   FetchOutcome.netError, FetchOutcome.netError, none, none⟩

/-! ## Helper lemmas -/

lemma stripLit_append (p t : List Char) : stripLit p (p ++ t) = some t := by
  induction p with
  | nil => rfl
  | cons a ps ih => simp [stripLit, ih]

lemma stripLit_mem : ∀ (p cs r : List Char), stripLit p cs = some r → ∀ a ∈ p, a ∈ cs := by
  intro p
  induction p with
  | nil => intro cs r _ a ha; simp at ha
  | cons b ps ih =>
    intro cs r h a ha
    cases cs with
    | nil => simp [stripLit] at h
    | cons c cs' =>
      simp only [stripLit] at h
      by_cases hbc : b == c
      · rw [if_pos hbc] at h
        rcases List.mem_cons.mp ha with rfl | ha'
        · have hac : a = c := eq_of_beq hbc
          simp [hac]
        · exact List.mem_cons_of_mem _ (ih cs' r h a ha')
      · rw [if_neg hbc] at h; exact absurd h (by simp)

lemma matchAlts_cons_of_ne (c : Char) (cs : List Char) (h : ¬(c = 'y')) :
    matchAlts (c :: cs) = none := by
  have hb : ('y' == c) = false := by
    simp only [beq_eq_false_iff_ne]; exact fun hy => h hy.symm
  simp [matchAlts, tryAlt, watchLit, shortLit, embedLit, stripLit, hb, Option.orElse]

lemma findUrlMatch_cons_of_ne (c : Char) (cs : List Char) (h : ¬(c = 'y')) :
    findUrlMatch (c :: cs) = findUrlMatch cs := by
  simp [findUrlMatch, matchAlts_cons_of_ne c cs h]

lemma isIdChar_not_stop (c : Char) (h : isIdChar c = true) : (!(isStopChar c)) = true := by
  cases hstop : isStopChar c
  · rfl
  · exfalso
    have hmem : c ∈ ['&', '\n', '?', '#'] := by
      simpa [isStopChar] using hstop
    fin_cases hmem <;> exact absurd h (by decide)

lemma takeWhile_id_eq (l : List Char) (h : ∀ c ∈ l, isIdChar c = true) :
    (l.takeWhile fun c => !(isStopChar c)) = l :=
  List.takeWhile_eq_self_iff.mpr fun c hc => isIdChar_not_stop c (h c hc)

lemma findUrlMatch_eq_of_matchAlts (l r : List Char) (hl : l ≠ [])
    (h : matchAlts l = some r) : findUrlMatch l = some r := by
  cases l with
  | nil => exact absurd rfl hl
  | cons c cs => simp [findUrlMatch, h]

lemma tryAlt_none_of_idChars (p cs : List Char) (hdot : '.' ∈ p)
    (h : ∀ c ∈ cs, isIdChar c = true) : tryAlt p cs = none := by
  cases hs : stripLit p cs with
  | none => simp [tryAlt, hs]
  | some r =>
    exfalso
    have hmem : '.' ∈ cs := stripLit_mem p cs r hs '.' hdot
    exact absurd (h '.' hmem) (by decide)

lemma matchAlts_none_of_idChars (cs : List Char) (h : ∀ c ∈ cs, isIdChar c = true) :
    matchAlts cs = none := by
  simp [matchAlts, tryAlt_none_of_idChars watchLit cs (by decide) h,
    tryAlt_none_of_idChars shortLit cs (by decide) h,
    tryAlt_none_of_idChars embedLit cs (by decide) h, Option.orElse]

lemma findUrlMatch_none_of_idChars :
    ∀ cs : List Char, (∀ c ∈ cs, isIdChar c = true) → findUrlMatch cs = none := by
  intro cs
  induction cs with
  | nil => intro _; rfl
  | cons c cs' ih =>
    intro h
    simp [findUrlMatch, matchAlts_none_of_idChars _ h,
      ih fun a ha => h a (List.mem_cons_of_mem c ha)]

lemma append_lit_ne_nil (p cs : List Char) (hp : p ≠ []) : p ++ cs ≠ [] :=
  fun hcontra => hp (List.append_eq_nil.mp hcontra).1

lemma matchAlts_watch (cs : List Char)
    (hne : (cs.takeWhile fun c => !(isStopChar c)).isEmpty = false) :
    matchAlts (watchLit ++ cs) = some (cs.takeWhile fun c => !(isStopChar c)) := by
  simp [matchAlts, tryAlt, stripLit_append, hne, Option.orElse]

lemma matchAlts_short (cs : List Char)
    (hne : (cs.takeWhile fun c => !(isStopChar c)).isEmpty = false) :
    matchAlts (shortLit ++ cs) = some (cs.takeWhile fun c => !(isStopChar c)) := by
  have h1 : stripLit watchLit (shortLit ++ cs) = none := rfl
  simp [matchAlts, tryAlt, h1, stripLit_append, hne, Option.orElse]

lemma matchAlts_embed (cs : List Char)
    (hne : (cs.takeWhile fun c => !(isStopChar c)).isEmpty = false) :
    matchAlts (embedLit ++ cs) = some (cs.takeWhile fun c => !(isStopChar c)) := by
  have h1 : stripLit watchLit (embedLit ++ cs) = none := rfl
  have h2 : stripLit shortLit (embedLit ++ cs) = none := rfl
  simp [matchAlts, tryAlt, h1, h2, stripLit_append, hne, Option.orElse]

lemma tryAlt_some (p cs r : List Char) (h : tryAlt p cs = some r) :
    r ≠ [] ∧ ∀ c ∈ r, isStopChar c = false := by
  unfold tryAlt at h
  rcases hs : stripLit p cs with _ | rest <;> rw [hs] at h
  · simp at h
  · simp only at h
    split at h
    · simp at h
    · rename_i hemp
      cases h
      refine ⟨by simpa [List.isEmpty_iff] using hemp, fun c hcmem => ?_⟩
      have hp := List.mem_takeWhile_imp hcmem
      simpa using hp

lemma matchAlts_some (cs r : List Char) (h : matchAlts cs = some r) :
    r ≠ [] ∧ ∀ c ∈ r, isStopChar c = false := by
  unfold matchAlts at h
  rcases h1 : tryAlt watchLit cs with _ | r1 <;> rw [h1] at h
  · simp only [Option.orElse] at h
    rcases h2 : tryAlt shortLit cs with _ | r2 <;> rw [h2] at h
    · simp only [Option.orElse] at h
      exact tryAlt_some embedLit cs r h
    · cases h; exact tryAlt_some shortLit cs _ h2
  · cases h; exact tryAlt_some watchLit cs _ h1

lemma findUrlMatch_some :
    ∀ cs r : List Char, findUrlMatch cs = some r →
      r ≠ [] ∧ ∀ c ∈ r, isStopChar c = false := by
  intro cs
  induction cs with
  | nil => intro r h; simp [findUrlMatch] at h
  | cons c cs' ih =>
    intro r h
    simp only [findUrlMatch] at h
    rcases hm : matchAlts (c :: cs') with _ | r1 <;> rw [hm] at h
    · exact ih r h
    · cases h; exact matchAlts_some _ _ hm

lemma parseJ_double_brace (n : Nat) (r : List Char) :
    parseJ (n + 2) PJob.value ('{' :: '{' :: r) = none := by
  have hws : isJsonWs '{' = false := rfl
  have h1 : ('{' == '{') = true := rfl
  have h2 : ('{' == '}') = false := rfl
  have h3 : ('{' == '"') = false := rfl
  show parseJ ((n + 1) + 1) PJob.value ('{' :: '{' :: r) = none
  simp [parseJ, skipWs, List.dropWhile_cons, hws, h1, h2, h3]

lemma jsonParse_wrap_brace (g : String) (t : List Char) (hg : g.data = '{' :: t) :
    jsonParse ("\x7b" ++ g ++ "\x7d") = none := by
  have hd : ("\x7b" ++ g ++ "\x7d").data = '{' :: '{' :: (t ++ ['}']) := by
    rw [String.data_append, String.data_append, hg]
    rfl
  unfold jsonParse
  rw [hd]
  have hfuel : 2 * ('{' :: '{' :: (t ++ ['}'])).length + 2 = (2 * t.length + 6) + 2 := by
    simp [List.length_append]
    omega
  rw [hfuel, parseJ_double_brace]

lemma findMapSuffix_some {α : Type} (f : List Char → Option α) :
    ∀ (cs : List Char) (a : α), findMapSuffix f cs = some a → ∃ s, f s = some a := by
  intro cs
  induction cs with
  | nil => intro a h; exact ⟨[], h⟩
  | cons c cs' ih =>
    intro a h
    simp only [findMapSuffix] at h
    rcases hm : f (c :: cs') with _ | r <;> rw [hm] at h
    · exact ih a h
    · cases h; exact ⟨c :: cs', hm⟩

lemma manifestMatchAt_some (cs r : List Char) (h : manifestMatchAt cs = some r) :
    ∃ t, r = '{' :: t := by
  unfold manifestMatchAt at h
  rcases hs : stripLit manifestLit cs with _ | rest <;> rw [hs] at h <;>
    dsimp only at h
  · simp at h
  · rcases hl : lazyHole rest with _ | m <;> rw [hl] at h
    · simp at h
    · simp only [Option.map] at h
      cases h
      exact ⟨_, rfl⟩

lemma findCaptionsJson_some (s g : String) (h : findCaptionsJson s = some g) :
    ∃ t, g.data = '{' :: t := by
  unfold findCaptionsJson at h
  rcases hf : findMapSuffix manifestMatchAt s.data with _ | l <;> rw [hf] at h
  · simp at h
  · simp only [Option.map] at h
    cases h
    obtain ⟨suf, hsuf⟩ := findMapSuffix_some manifestMatchAt s.data l hf
    obtain ⟨t, ht⟩ := manifestMatchAt_some suf l hsuf
    exact ⟨t, ht⟩

lemma fetchTranscriptT_eq (w : World) (videoId : String) :
    fetchTranscriptT w videoId = (none, [ExtCall.page]) := by
  unfold fetchTranscriptT
  rcases hpf : w.pageFetch with _ | ⟨ok, st, body⟩
  · rfl
  · cases ok
    · rfl
    · simp only [if_true]
      by_cases hm : hasCaptionsMarker body
      · rw [if_pos hm]
        rcases hfc : findCaptionsJson body with _ | g
        · rfl
        · obtain ⟨t, hg⟩ := findCaptionsJson_some body g hfc
          dsimp only
          rw [jsonParse_wrap_brace g t hg]
      · rw [if_neg hm]

lemma extractVideoId_empty : extractVideoId "" = none := rfl

lemma handle_beq_ne (u : String) (vid : String) (hx : extractVideoId u = some vid) :
    (u == "") = false := by
  rcases hbe : (u == "") with _ | _
  · rfl
  · exfalso
    have hu : u = "" := eq_of_beq hbe
    rw [hu, extractVideoId_empty] at hx
    exact Option.noConfusion hx

/-! ## Claim theorems -/

/-- Claim C1.  The claim says a page body with a well-formed caption manifest
whose first track's URL yields a decodable, segment-bearing event list makes
the transcript resolver return the flattened transcript (present).  The code
violates this: the regex capture at line 149 already starts with `{`, and
line 155 wraps it in one more brace pair before `JSON.parse`, so the parse
always throws and the resolver returns absent.  Evaluated at the concrete
world `c1World`, all of the claim's premises hold — the marker is present,
regex 2 captures `c1Capture`, that fragment alone decodes to a manifest whose
first track URL is `u1`, and fetching `u1` yields a flattened transcript —
yet `fetchTranscript` returns `none`. -/
theorem c1_transcript_code_bug_eval :
    hasCaptionsMarker c1Page = true ∧
    findCaptionsJson c1Page = some c1Capture ∧
    jsonParse c1Capture = some c1ManifestJson ∧
    firstTrackUrl c1ManifestJson = some "u1" ∧
    captionStage c1World "u1" = some "hello world" ∧
    fetchTranscript c1World "dQw4w9WgXcQ" = none :=
  ⟨by rfl, by rfl, by rfl, by rfl, by rfl, by rfl⟩

/-- Claim C2.  Flattening the caption-fetch events
`[{segs:[{utf8:"Hello "}]}, {segs:[{utf8:"world"}]}, {noSegs:true}]`
keeps only the two segment-bearing events, joins them with a single space,
and yields exactly `"Hello  world"` (two spaces); the same string results
from the caption stage run against a response carrying that payload. -/
theorem c2_flatten_hello_world :
    flattenJsonEvents c2Events = some "Hello  world" ∧
    jsonParse c2Body = some (Json.object [("events", Json.array c2Events)]) ∧
    captionStage c2World "u2" = some "Hello  world" :=
  ⟨by rfl, by rfl, by rfl⟩

/-- Claim C3.  For every 11-character ID over `[A-Za-z0-9_-]`, the extractor
returns the ID for `https://youtube.com/watch?v=ID`, `https://youtu.be/ID`,
`https://youtube.com/embed/ID` and the bare ID, and returns absent for
`"not a url"`. -/
theorem c3_extractVideoId_forms (id : String) (hlen : id.length = 11)
    (hc : ∀ c ∈ id.data, isIdChar c = true) :
    extractVideoId ("https://youtube.com/watch?v=" ++ id) = some id ∧
    extractVideoId ("https://youtu.be/" ++ id) = some id ∧
    extractVideoId ("https://youtube.com/embed/" ++ id) = some id ∧
    extractVideoId id = some id ∧
    extractVideoId "not a url" = none := by
  have hdl : id.data.length = 11 := hlen
  have hnil : id.data ≠ [] := by
    intro h; rw [h] at hdl; exact absurd hdl (by decide)
  have htw : (id.data.takeWhile fun c => !(isStopChar c)) = id.data :=
    takeWhile_id_eq id.data hc
  have hne : ((id.data).takeWhile fun c => !(isStopChar c)).isEmpty = false := by
    rw [htw]; simpa [List.isEmpty_iff] using hnil
  refine ⟨?_, ?_, ?_, ?_, rfl⟩
  · have hd1 : ("https://youtube.com/watch?v=" ++ id).data =
        'h' :: 't' :: 't' :: 'p' :: 's' :: ':' :: '/' :: '/' :: (watchLit ++ id.data) := by
      rw [String.data_append]; rfl
    unfold extractVideoId
    rw [hd1,
      findUrlMatch_cons_of_ne 'h' _ (by decide),
      findUrlMatch_cons_of_ne 't' _ (by decide),
      findUrlMatch_cons_of_ne 't' _ (by decide),
      findUrlMatch_cons_of_ne 'p' _ (by decide),
      findUrlMatch_cons_of_ne 's' _ (by decide),
      findUrlMatch_cons_of_ne ':' _ (by decide),
      findUrlMatch_cons_of_ne '/' _ (by decide),
      findUrlMatch_cons_of_ne '/' _ (by decide),
      findUrlMatch_eq_of_matchAlts (watchLit ++ id.data) _
        (append_lit_ne_nil _ _ (by decide)) (matchAlts_watch id.data hne),
      htw]
  · have hd2 : ("https://youtu.be/" ++ id).data =
        'h' :: 't' :: 't' :: 'p' :: 's' :: ':' :: '/' :: '/' :: (shortLit ++ id.data) := by
      rw [String.data_append]; rfl
    unfold extractVideoId
    rw [hd2,
      findUrlMatch_cons_of_ne 'h' _ (by decide),
      findUrlMatch_cons_of_ne 't' _ (by decide),
      findUrlMatch_cons_of_ne 't' _ (by decide),
      findUrlMatch_cons_of_ne 'p' _ (by decide),
      findUrlMatch_cons_of_ne 's' _ (by decide),
      findUrlMatch_cons_of_ne ':' _ (by decide),
      findUrlMatch_cons_of_ne '/' _ (by decide),
      findUrlMatch_cons_of_ne '/' _ (by decide),
      findUrlMatch_eq_of_matchAlts (shortLit ++ id.data) _
        (append_lit_ne_nil _ _ (by decide)) (matchAlts_short id.data hne),
      htw]
  · have hd3 : ("https://youtube.com/embed/" ++ id).data =
        'h' :: 't' :: 't' :: 'p' :: 's' :: ':' :: '/' :: '/' :: (embedLit ++ id.data) := by
      rw [String.data_append]; rfl
    unfold extractVideoId
    rw [hd3,
      findUrlMatch_cons_of_ne 'h' _ (by decide),
      findUrlMatch_cons_of_ne 't' _ (by decide),
      findUrlMatch_cons_of_ne 't' _ (by decide),
      findUrlMatch_cons_of_ne 'p' _ (by decide),
      findUrlMatch_cons_of_ne 's' _ (by decide),
      findUrlMatch_cons_of_ne ':' _ (by decide),
      findUrlMatch_cons_of_ne '/' _ (by decide),
      findUrlMatch_cons_of_ne '/' _ (by decide),
      findUrlMatch_eq_of_matchAlts (embedLit ++ id.data) _
        (append_lit_ne_nil _ _ (by decide)) (matchAlts_embed id.data hne),
      htw]
  · unfold extractVideoId
    rw [findUrlMatch_none_of_idChars id.data hc]
    have h1 : (id.data.length == 11) = true := by simp [hdl]
    have h2 : id.data.all isIdChar = true := by simpa [List.all_eq_true] using hc
    simp [h1, h2, hlen]

/-- Witness for C3 at the concrete ID `dQw4w9WgXcQ`. -/
theorem c3_extractVideoId_forms_witness :
    ("dQw4w9WgXcQ" : String).length = 11 ∧
    (∀ c ∈ ("dQw4w9WgXcQ" : String).data, isIdChar c = true) ∧
    (extractVideoId ("https://youtube.com/watch?v=" ++ "dQw4w9WgXcQ") = some "dQw4w9WgXcQ" ∧
     extractVideoId ("https://youtu.be/" ++ "dQw4w9WgXcQ") = some "dQw4w9WgXcQ" ∧
     extractVideoId ("https://youtube.com/embed/" ++ "dQw4w9WgXcQ") = some "dQw4w9WgXcQ" ∧
     extractVideoId "dQw4w9WgXcQ" = some "dQw4w9WgXcQ" ∧
     extractVideoId "not a url" = none) :=
  ⟨by decide, by decide, c3_extractVideoId_forms "dQw4w9WgXcQ" (by decide) (by decide)⟩

/-- Claim C4, counterexample.  The claim says every non-absent extraction
result is exactly 11 characters; the URL patterns impose no length bound:
`https://youtu.be/abc` extracts `"abc"` of length 3. -/
theorem c4_eleven_char_counterexample :
    extractVideoId "https://youtu.be/abc" = some "abc" ∧
    ¬ (("abc" : String).length = 11) := ⟨by rfl, by decide⟩

/-- Claim C4, amended.  Whenever the extractor returns a non-absent result,
that result is a nonempty string containing none of the terminator characters
`&`, newline, `?`, `#`; the exactly-11-characters guarantee holds only for
the bare-token pattern, not for the URL patterns. -/
theorem c4_extract_nonempty_no_terminators (url s : String)
    (h : extractVideoId url = some s) :
    s.data ≠ [] ∧ ∀ c ∈ s.data, isStopChar c = false := by
  unfold extractVideoId at h
  rcases hf : findUrlMatch url.data with _ | run <;> rw [hf] at h <;> dsimp only at h
  · split at h
    · cases h
      rename_i hcond
      rw [Bool.and_eq_true] at hcond
      have hlen : url.data.length = 11 := by simpa using hcond.1
      have hall : ∀ c ∈ url.data, isIdChar c = true := by
        simpa [List.all_eq_true] using hcond.2
      refine ⟨?_, fun c hcm => ?_⟩
      · intro hnil; rw [hnil] at hlen; exact absurd hlen (by decide)
      · have hns := isIdChar_not_stop c (hall c hcm)
        simpa using hns
    · cases h
  · cases h
    simpa using findUrlMatch_some url.data run hf

/-- Witness for the amended C4 at the input `https://youtu.be/abc`. -/
theorem c4_extract_nonempty_no_terminators_witness :
    extractVideoId "https://youtu.be/abc" = some "abc" ∧
    (("abc" : String).data ≠ [] ∧ ∀ c ∈ ("abc" : String).data, isStopChar c = false) :=
  ⟨by rfl, c4_extract_nonempty_no_terminators "https://youtu.be/abc" "abc" (by rfl)⟩

/-- Claim C5.  The transcript resolver is a total `Option`-valued function of
the world (every thrown JS exception is caught inside it), so it never raises
to its caller; and under every behaviour of the external fetches — including
HTTP failure, non-success status, undecodable body, missing manifest, empty
caption-track list and empty event list — it returns absent.  In this code
the result is absent for every world (see C1's brace-wrapping bug). -/
theorem c5_fetchTranscript_never_raises_absent (w : World) (videoId : String) :
    fetchTranscript w videoId = none := by
  unfold fetchTranscript
  rw [fetchTranscriptT_eq]

/-- Claim C6.  Every failure mode of the title lookup — network error,
non-success status, undecodable body, or a decoded body without a `title`
field — resolves the title to the fixed placeholder `"Unknown Video"`;
the resolver is total, so title resolution never fails the request. -/
theorem c6_title_fallback_unknown_video (w : World)
    (h : w.oembedFetch = FetchOutcome.netError
      ∨ (∃ st body, w.oembedFetch = FetchOutcome.response false st body)
      ∨ (∃ st body, w.oembedFetch = FetchOutcome.response true st body ∧
          jsonParse body = none)
      ∨ (∃ st body data, w.oembedFetch = FetchOutcome.response true st body ∧
          jsonParse body = some data ∧ jsonGet data "title" = none)) :
    fetchVideoTitle w = "Unknown Video" := by
  unfold fetchVideoTitle
  rcases h with h | ⟨st, body, h⟩ | ⟨st, body, h, hp⟩ | ⟨st, body, data, h, hp, ht⟩ <;>
    rw [h]
  · rfl
  · simp [hp]
  · simp [hp, ht]

/-- Witness for C6 at a world whose oEmbed lookup rejects. -/
theorem c6_title_fallback_unknown_video_witness :
    c6World.oembedFetch = FetchOutcome.netError ∧
    fetchVideoTitle c6World = "Unknown Video" :=
  ⟨rfl, c6_title_fallback_unknown_video c6World (Or.inl rfl)⟩

/-- Claim C7.  When the completion endpoint answers a non-success status, the
summarizer fails with an error carrying that status code, the request ends
with status 500, and the store insert is never reached. -/
theorem c7_ai_gateway_error_aborts (w : World) (u vid k body : String) (st : Nat)
    (hx : extractVideoId u = some vid)
    (hk : w.apiKey = some k)
    (hai : w.aiFetch = FetchOutcome.response false st body) :
    summarizeWithAI w (promptFor u (fetchTranscript w vid)) (fetchVideoTitle w)
      = Except.error ("AI Gateway error: " ++ toString st) ∧
    (handle w (some u)).status = 500 ∧
    (handle w (some u)).insertCalled = false ∧
    ExtCall.db ∉ (handle w (some u)).calls := by
  have hsum : ∀ p t', summarizeWithAI w p t' =
      Except.error ("AI Gateway error: " ++ toString st) := by
    intro p t'
    unfold summarizeWithAI
    rw [hk, hai]
    rfl
  have hh : handle w (some u) =
      ⟨500, some ("AI Gateway error: " ++ toString st), none,
        [promptFor u none], false, [ExtCall.page, ExtCall.oembed, ExtCall.ai]⟩ := by
    simp only [handle, handle_beq_ne u vid hx, Bool.false_eq_true, if_false, hx,
      fetchTranscriptT_eq, hsum, summarizeCalls, hk]
    rfl
  refine ⟨hsum _ _, ?_, ?_, ?_⟩ <;> (rw [hh]; try simp)

/-- Witness for C7 at the concrete world `c7World` whose completion endpoint
answers HTTP 500. -/
theorem c7_ai_gateway_error_aborts_witness :
    extractVideoId "dQw4w9WgXcQ" = some "dQw4w9WgXcQ" ∧
    c7World.apiKey = some "k" ∧
    c7World.aiFetch = FetchOutcome.response false 500 "err" ∧
    (summarizeWithAI c7World
        (promptFor "dQw4w9WgXcQ" (fetchTranscript c7World "dQw4w9WgXcQ"))
        (fetchVideoTitle c7World)
      = Except.error ("AI Gateway error: " ++ toString 500) ∧
     (handle c7World (some "dQw4w9WgXcQ")).status = 500 ∧
     (handle c7World (some "dQw4w9WgXcQ")).insertCalled = false ∧
     ExtCall.db ∉ (handle c7World (some "dQw4w9WgXcQ")).calls) :=
  ⟨by rfl, rfl, rfl,
    c7_ai_gateway_error_aborts c7World "dQw4w9WgXcQ" "dQw4w9WgXcQ" "k" "err" 500
      (by rfl) rfl rfl⟩

/-- Claim C8.  When transcript resolution yields absent and the summarizer
and store succeed, the request completes with status 200 and the summarizer
is invoked with the fixed instructional placeholder text — stating that the
transcript could not be fetched, instructing disclosure, permitting only a
speculative title-based guess, and embedding the original video URL at its
end — rather than with the absent value. -/
theorem c8_fallback_prompt_on_absent_transcript
    (w : World) (u vid k body s rid ts : String) (st : Nat)
    (hx : extractVideoId u = some vid)
    (ht : fetchTranscript w vid = none)
    (hk : w.apiKey = some k)
    (hai : w.aiFetch = FetchOutcome.response true st body)
    (hex : aiExtractContent body = Except.ok s)
    (hdb : w.dbInsert = some (rid, ts)) :
    (handle w (some u)).status = 200 ∧
    (handle w (some u)).aiPrompts =
      ["TRANSCRIPT NOT AVAILABLE.\n\nThe captions for this YouTube video could not be fetched. You do NOT know the exact content of the video.\n\nBased ONLY on the title and URL, do the following:\n1. Clearly tell the user that the transcript is not available.\n2. Explain what this likely means (no subtitles or restricted video).\n3. If the title suggests a topic, give a very high-level, generic description of what such a video might cover.\n4. Warn the user that this is just a guess.\n\nVideo URL: " ++ u] ∧
    (handle w (some u)).aiPrompts = [fallbackText u] := by
  have hsum : ∀ p t', summarizeWithAI w p t' = Except.ok s := by
    intro p t'
    unfold summarizeWithAI
    rw [hk, hai]
    dsimp only
    rw [if_pos rfl, hex]
  have hh : handle w (some u) =
      ⟨200, none, some (s, fetchVideoTitle w, rid, ts), [promptFor u none], true,
        [ExtCall.page, ExtCall.oembed, ExtCall.ai, ExtCall.db]⟩ := by
    simp only [handle, handle_beq_ne u vid hx, Bool.false_eq_true, if_false, hx,
      fetchTranscriptT_eq, hsum, summarizeCalls, hk, hdb]
    rfl
  refine ⟨?_, ?_, ?_⟩ <;> (rw [hh]; try rfl)

/-- Witness for C8 at the concrete world `c8World`. -/
theorem c8_fallback_prompt_on_absent_transcript_witness :
    extractVideoId "dQw4w9WgXcQ" = some "dQw4w9WgXcQ" ∧
    fetchTranscript c8World "dQw4w9WgXcQ" = none ∧
    aiExtractContent c8Body = Except.ok "a summary" ∧
    c8World.dbInsert = some ("id1", "t1") ∧
    ((handle c8World (some "dQw4w9WgXcQ")).status = 200 ∧
     (handle c8World (some "dQw4w9WgXcQ")).aiPrompts =
       ["TRANSCRIPT NOT AVAILABLE.\n\nThe captions for this YouTube video could not be fetched. You do NOT know the exact content of the video.\n\nBased ONLY on the title and URL, do the following:\n1. Clearly tell the user that the transcript is not available.\n2. Explain what this likely means (no subtitles or restricted video).\n3. If the title suggests a topic, give a very high-level, generic description of what such a video might cover.\n4. Warn the user that this is just a guess.\n\nVideo URL: " ++ "dQw4w9WgXcQ"] ∧
     (handle c8World (some "dQw4w9WgXcQ")).aiPrompts = [fallbackText "dQw4w9WgXcQ"]) :=
  ⟨by rfl, by rfl, by rfl, rfl,
    c8_fallback_prompt_on_absent_transcript c8World "dQw4w9WgXcQ" "dQw4w9WgXcQ"
      "k" c8Body "a summary" "id1" "t1" 200 (by rfl) (by rfl) rfl rfl (by rfl) rfl⟩

/-- Claim C9, counterexample.  The claim says the title fetch precedes
transcript resolution in the sequence of outbound calls; in the code the
transcript page fetch comes first (index.ts lines 39-42).  At the world
`c9World` with the extractable input `dQw4w9WgXcQ` the trace is
`[page, oembed, ai, db]`, so the oEmbed (title) call does not precede the
page (transcript) call. -/
theorem c9_title_before_transcript_counterexample :
    extractVideoId "dQw4w9WgXcQ" = some "dQw4w9WgXcQ" ∧
    (handle c9World (some "dQw4w9WgXcQ")).calls =
      [ExtCall.page, ExtCall.oembed, ExtCall.ai, ExtCall.db] ∧
    ¬ (List.indexOf ExtCall.oembed (handle c9World (some "dQw4w9WgXcQ")).calls <
        List.indexOf ExtCall.page (handle c9World (some "dQw4w9WgXcQ")).calls) := by
  have hc : (handle c9World (some "dQw4w9WgXcQ")).calls =
      [ExtCall.page, ExtCall.oembed, ExtCall.ai, ExtCall.db] := by rfl
  refine ⟨by rfl, hc, ?_⟩
  rw [hc]
  decide

/-- Claim C9, amended.  For every request with an extractable video ID the
outbound calls happen in the order: ID extraction, then transcript resolution
(the page fetch, possibly followed by the caption fetch), then the title
fetch, then only summarization and persistence. -/
theorem c9_call_order_amended (w : World) (u vid : String)
    (hx : extractVideoId u = some vid) :
    ∃ t r, (handle w (some u)).calls = t ++ ExtCall.oembed :: r ∧
      t.head? = some ExtCall.page ∧
      (∀ c ∈ t, c = ExtCall.page ∨ c = ExtCall.caption) ∧
      (∀ c ∈ r, c = ExtCall.ai ∨ c = ExtCall.db) := by
  have hsc : ∀ c ∈ summarizeCalls w, c = ExtCall.ai := by
    intro c hc
    unfold summarizeCalls at hc
    rcases hk2 : w.apiKey with _ | k <;> rw [hk2] at hc
    · simp at hc
    · simpa using hc
  have h1 : (handle w (some u)).calls =
        [ExtCall.page] ++ [ExtCall.oembed] ++ summarizeCalls w ∨
      (handle w (some u)).calls =
        [ExtCall.page] ++ [ExtCall.oembed] ++ summarizeCalls w ++ [ExtCall.db] := by
    simp only [handle, handle_beq_ne u vid hx, Bool.false_eq_true, if_false, hx,
      fetchTranscriptT_eq]
    rcases summarizeWithAI w (promptFor u none) (fetchVideoTitle w) with msg | summary
    · left; rfl
    · rcases w.dbInsert with _ | ⟨rid, ts⟩
      · right; rfl
      · right; rfl
  rcases h1 with h1 | h1
  · refine ⟨[ExtCall.page], summarizeCalls w, ?_, rfl, ?_, ?_⟩
    · rw [h1]; simp
    · intro c hc; simp at hc; simp [hc]
    · intro c hc; exact Or.inl (hsc c hc)
  · refine ⟨[ExtCall.page], summarizeCalls w ++ [ExtCall.db], ?_, rfl, ?_, ?_⟩
    · rw [h1]; simp
    · intro c hc; simp at hc; simp [hc]
    · intro c hc
      rcases List.mem_append.mp hc with hc1 | hc2
      · exact Or.inl (hsc c hc1)
      · simp at hc2; simp [hc2]

/-- Witness for the amended C9 at the concrete world `c9World`. -/
theorem c9_call_order_amended_witness :
    extractVideoId "dQw4w9WgXcQ" = some "dQw4w9WgXcQ" ∧
    (∃ t r, (handle c9World (some "dQw4w9WgXcQ")).calls = t ++ ExtCall.oembed :: r ∧
      t.head? = some ExtCall.page ∧
      (∀ c ∈ t, c = ExtCall.page ∨ c = ExtCall.caption) ∧
      (∀ c ∈ r, c = ExtCall.ai ∨ c = ExtCall.db)) :=
  ⟨by rfl, c9_call_order_amended c9World "dQw4w9WgXcQ" "dQw4w9WgXcQ" (by rfl)⟩

/-- Claim C10.  A caption-fetch response with a nonempty event list none of
whose events carries segments makes the caption stage return the empty string
(not absent), and the orchestrator's falsy check treats that empty string
exactly like an absent transcript: the prompt selection yields the fallback
instructional text, the same as for an absent transcript. -/
theorem c10_empty_transcript_fallback (w : World) (url body u : String)
    (st : Nat) (td : Json) (es : List Json)
    (hf : w.captionFetch url = FetchOutcome.response true st body)
    (hp : jsonParse body = some td)
    (he : jsonGet td "events" = some (Json.array es))
    (hne : es ≠ [])
    (hseg : ∀ e ∈ es, segTruthy e = false) :
    captionStage w url = some "" ∧
    promptFor u (some "") = fallbackText u ∧
    promptFor u (some "") = promptFor u none := by
  refine ⟨?_, rfl, rfl⟩
  unfold captionStage
  rw [hf]
  dsimp only
  rw [hp]
  dsimp only
  rw [he]
  cases es with
  | nil => exact absurd rfl hne
  | cons e es' =>
    dsimp only
    unfold flattenJsonEvents
    have hfil : (e :: es').filter segTruthy = [] :=
      List.filter_eq_nil_iff.mpr fun a ha => by simp [hseg a ha]
    rw [hfil]
    rfl

/-- Witness for C10 at the concrete world `c10World`. -/
theorem c10_empty_transcript_fallback_witness :
    jsonParse c10Body =
      some (Json.object [("events", Json.array [Json.object [("noSegs", Json.boolean true)]])]) ∧
    (captionStage c10World "u3" = some "" ∧
     promptFor "https://youtu.be/xyz" (some "") = fallbackText "https://youtu.be/xyz" ∧
     promptFor "https://youtu.be/xyz" (some "") = promptFor "https://youtu.be/xyz" none) :=
  ⟨by rfl,
    c10_empty_transcript_fallback c10World "u3" c10Body "https://youtu.be/xyz" 200
      (Json.object [("events", Json.array [Json.object [("noSegs", Json.boolean true)]])])
      [Json.object [("noSegs", Json.boolean true)]]
      rfl (by rfl) rfl (by simp) (by decide)⟩
